import Mathlib

/-!
# KEDB entry lifecycle and review-approval state machine

A shallow embedding of the core of the KEDB backend: the entry workflow
state machine (`EntryService`) and the review workflow controller
(`ReviewService`), together with the repository layer they call
(`EntryRepository`, `ReviewRepository`).

Database state is modelled as a `Store`: maps from record ids to `Entry`
and `Review` records (a review carries its participants, matching the
`selectinload` joins the repositories perform).  Each stateful operation
takes and returns a `Store`; Python exceptions become the `Err` sum,
returned in `Except`.  The wall clock (`datetime.now`) is passed in
explicitly as a `now : Nat` parameter.  Record ids are `Nat` in place of
UUIDs.
-/

/-- Workflow/decision errors.  Mirrors `app/core/exceptions.py`; the extra
`MultipleResultsFound` models SQLAlchemy's `scalar_one_or_none` raising when
a query matches more than one row. -/
inductive Err where
  | NotFoundError (msg : String)
  | ValidationError (msg : String)
  | WorkflowError (msg : String)
  | MultipleResultsFound
  deriving Repr, DecidableEq

/-- Modelled from the spec: the `Entry` record of `app/models/entry.py`
(the models package is not included in the sources); fields per spec §3,
restricted to those the lifecycle logic reads or writes. -/
structure Entry where
  title : String
  severity : String
  workflow_state : String
  created_by : String
  approved_by : Option String := none
  approved_at : Option Nat := none
  merged_into_id : Option Nat := none
  deriving Repr, DecidableEq

/-- Modelled from the spec: the `ReviewParticipant` record of
`app/models/review.py`; fields per spec §3. -/
structure ReviewParticipant where
  user_id : String
  role : String
  approved_at : Option Nat := none
  deriving Repr, DecidableEq

/-- Modelled from the spec: the `Review` record of `app/models/review.py`;
fields per spec §3.  The participant rows keyed by `review_id` are stored
inline, in insertion order. -/
structure Review where
  entry_id : Nat
  status : String
  rca_text : Option String := none
  participants : List ReviewParticipant := []
  deriving Repr, DecidableEq

/-- The two stores the controller writes to, plus the id supply for newly
created reviews. -/
structure Store where
  entries : Nat → Option Entry
  reviews : Nat → Option Review
  next_review_id : Nat

/-- Python truthiness of an `Optional[str]`: `None` and `""` are falsy. -/
def truthyStr : Option String → Bool
  | none => false
  | some s => !s.isEmpty

namespace EntryRepository

/-- `BaseRepository.get` for entries: `SELECT ... WHERE id = :id`. -/
def get (st : Store) (id : Nat) : Option Entry :=
  st.entries id

/-- `EntryRepository.update_workflow_state`: load the entry (returning
`none` when absent), set `workflow_state`, and iff `approved_by` is truthy
also stamp `approved_by`/`approved_at` with the current time. -/
def update_workflow_state (st : Store) (id : Nat) (new_state : String)
    (approved_by : Option String) (now : Nat) : Store × Option Entry :=
  match st.entries id with
  | none => (st, none)
  | some entry =>
    let e1 := { entry with workflow_state := new_state }
    let e2 := if truthyStr approved_by then
        { e1 with approved_by := approved_by, approved_at := some now }
      else e1
    ({ st with entries := fun i => if i = id then some e2 else st.entries i },
     some e2)

end EntryRepository

namespace ReviewRepository

/-- `BaseRepository.get` for reviews. -/
def get (st : Store) (id : Nat) : Option Review :=
  st.reviews id

/-- `ReviewRepository.get_with_participants`: same lookup; participants are
stored inline in the model. -/
def get_with_participants (st : Store) (id : Nat) : Option Review :=
  st.reviews id

/-- `ReviewRepository.create_with_participants`: insert a review row with a
fresh id and its optional participant rows. -/
def create_with_participants (st : Store) (review_data : Review)
    (participants : Option (List ReviewParticipant)) : Store × Nat :=
  let rid := st.next_review_id
  let review := { review_data with
    participants := match participants with
      | none => []
      | some ps => ps }
  ({ st with
      reviews := fun i => if i = rid then some review else st.reviews i,
      next_review_id := rid + 1 },
   rid)

/-- `ReviewRepository.update_status`: load the review (returning `none`
when absent) and overwrite its status. -/
def update_status (st : Store) (id : Nat) (new_status : String) :
    Store × Option Review :=
  match st.reviews id with
  | none => (st, none)
  | some review =>
    let review' := { review with status := new_status }
    ({ st with reviews := fun i => if i = id then some review' else st.reviews i },
     some review')

/-- `ReviewRepository.approve_by_participant`: select the participant row
with the given `review_id` and `user_id` via `scalar_one_or_none` (`none`
when no row matches, an exception when several do) and stamp its
`approved_at`. -/
def approve_by_participant (st : Store) (review_id : Nat) (user_id : String)
    (now : Nat) : Store × Except Err (Option ReviewParticipant) :=
  match st.reviews review_id with
  | none => (st, .ok none)
  | some review =>
    match review.participants.filter (fun p => p.user_id == user_id) with
    | [] => (st, .ok none)
    | [p] =>
      let p' := { p with approved_at := some now }
      let review' := { review with
        participants := review.participants.map
          (fun q => if q.user_id == user_id then { q with approved_at := some now } else q) }
      ({ st with reviews := fun i => if i = review_id then some review' else st.reviews i },
       .ok (some p'))
    | _ => (st, .error .MultipleResultsFound)

end ReviewRepository

namespace EntryService

/-- `EntryService.VALID_WORKFLOW_TRANSITIONS`, the transition table, as the
association list the Python dict literal writes down. -/
def VALID_WORKFLOW_TRANSITIONS : List (String × List String) :=
  [("draft", ["in_review", "retired"]),
   ("in_review", ["draft", "published", "retired"]),
   ("published", ["retired", "merged"]),
   ("retired", []),
   ("merged", [])]

/-- Python `dict.get(key, default)` over the association list. -/
def dictGetD (d : List (String × List String)) (key : String)
    (default : List String) : List String :=
  match d.find? (fun kv => kv.1 == key) with
  | some kv => kv.2
  | none => default

/-- The transition-legality check exactly as `transition_workflow` performs
it: membership of the target in `VALID_WORKFLOW_TRANSITIONS.get(current, [])`. -/
def canTransition (current target : String) : Bool :=
  (dictGetD VALID_WORKFLOW_TRANSITIONS current []).contains target

/-- The `WorkflowError` message `transition_workflow` raises on an illegal
transition. -/
def invalidTransitionMsg (current_state new_state : String)
    (valid_transitions : List String) : String :=
  "Invalid transition from " ++ current_state ++ " to " ++ new_state ++ ". " ++
  "Valid transitions: " ++ String.intercalate ", " valid_transitions

/-- `EntryService.transition_workflow`: load the entry (`NotFoundError` when
absent), look its state up in the table (default `[]`), raise
`WorkflowError` when the target is not allowed, otherwise write the new
state through `update_workflow_state`. -/
def transition_workflow (st : Store) (entry_id : Nat) (new_state : String)
    (approved_by : Option String) (now : Nat) : Store × Except Err (Option Entry) :=
  match EntryRepository.get st entry_id with
  | none => (st, .error (.NotFoundError ("Entry " ++ toString entry_id ++ " not found")))
  | some entry =>
    let current_state := entry.workflow_state
    let valid_transitions := dictGetD VALID_WORKFLOW_TRANSITIONS current_state []
    if valid_transitions.contains new_state then
      let (st', e') := EntryRepository.update_workflow_state st entry_id new_state approved_by now
      (st', .ok e')
    else
      (st, .error (.WorkflowError (invalidTransitionMsg current_state new_state valid_transitions)))

/-- `EntryService.delete_entry`: load the entry (`NotFoundError` when
absent) and mark it retired, with no legality check. -/
def delete_entry (st : Store) (entry_id : Nat) (now : Nat) : Store × Except Err Bool :=
  match EntryRepository.get st entry_id with
  | none => (st, .error (.NotFoundError ("Entry " ++ toString entry_id ++ " not found")))
  | some _ =>
    let (st', _) := EntryRepository.update_workflow_state st entry_id "retired" none now
    (st', .ok true)

end EntryService

/-- Request body for opening a review (`ReviewCreate` of
`app/schemas/review.py`): optional `rca_text` and optional participants. -/
structure ReviewCreate where
  rca_text : Option String := none
  participants : Option (List ReviewParticipant) := none

/-- Request body for deciding a review (`ReviewDecision` of
`app/schemas/review.py`). -/
structure ReviewDecision where
  status : String
  comment : Option String := none

namespace ReviewService

/-- `ReviewService.create_review`: load the entry (`NotFoundError` when
absent), require state `"draft"` (`WorkflowError` otherwise), insert the
review with status `"pending"` and its participants, flip the entry to
`"in_review"`, and return the review re-read with participants.  The
`created_by` argument is accepted but, as in the source, never used. -/
def create_review (st : Store) (entry_id : Nat) (review_data : ReviewCreate)
    (created_by : String) (now : Nat) : Store × Except Err (Option Review) :=
  match EntryRepository.get st entry_id with
  | none => (st, .error (.NotFoundError ("Entry " ++ toString entry_id ++ " not found")))
  | some entry =>
    if entry.workflow_state != "draft" then
      (st, .error (.WorkflowError
        ("Entry must be in draft state to create review. Current state: " ++ entry.workflow_state)))
    else
      let data : Review := { entry_id := entry_id, status := "pending",
                             rca_text := review_data.rca_text, participants := [] }
      let participants := match review_data.participants with
        | none => none
        | some ps => if ps.isEmpty then none else some ps
      let (st1, rid) := ReviewRepository.create_with_participants st data participants
      let (st2, _) := EntryRepository.update_workflow_state st1 entry_id "in_review" none now
      (st2, .ok (ReviewRepository.get_with_participants st2 rid))

/-- `ReviewService.submit_decision`: load the review with participants
(`NotFoundError` when absent), require status `"pending"`
(`ValidationError` otherwise), require `user_id` to be among the
participants (`ValidationError` otherwise), write the decision onto the
review, on approval stamp the deciding participant, then write the entry
state implied by the decision (`published` with approver on approval,
`draft` on rejection or changes requested), and return the review re-read
with participants. -/
def submit_decision (st : Store) (review_id : Nat) (decision : ReviewDecision)
    (user_id : String) (now : Nat) : Store × Except Err (Option Review) :=
  match ReviewRepository.get_with_participants st review_id with
  | none => (st, .error (.NotFoundError ("Review " ++ toString review_id ++ " not found")))
  | some review =>
    if review.status != "pending" then
      (st, .error (.ValidationError ("Review is already " ++ review.status)))
    else
      match review.participants.find? (fun p => p.user_id == user_id) with
      | none => (st, .error (.ValidationError
          ("User " ++ user_id ++ " is not a participant in this review")))
      | some _ =>
        let (st1, _) := ReviewRepository.update_status st review_id decision.status
        let approveStep : Store × Except Err Unit :=
          if decision.status == "approved" then
            match ReviewRepository.approve_by_participant st1 review_id user_id now with
            | (st2, .error e) => (st2, .error e)
            | (st2, .ok _) => (st2, .ok ())
          else (st1, .ok ())
        match approveStep with
        | (st2, .error e) => (st2, .error e)
        | (st2, .ok _) =>
          let st3 :=
            if decision.status == "approved" then
              (EntryRepository.update_workflow_state st2 review.entry_id "published" (some user_id) now).1
            else if decision.status == "rejected" then
              (EntryRepository.update_workflow_state st2 review.entry_id "draft" none now).1
            else if decision.status == "changes_requested" then
              (EntryRepository.update_workflow_state st2 review.entry_id "draft" none now).1
            else st2
          (st3, .ok (ReviewRepository.get_with_participants st3 review_id))

end ReviewService

/-! ## Helper lemmas about the repository layer -/

/-- The entry value `update_workflow_state` writes: new state, plus the
approval stamp iff `approved_by` is truthy. -/
def uwsEntry (e : Entry) (s : String) (ab : Option String) (now : Nat) : Entry :=
  if truthyStr ab then
    { e with workflow_state := s, approved_by := ab, approved_at := some now }
  else { e with workflow_state := s }

/-! ## Sample data, used to instantiate the theorems on concrete stores -/

/-- A concrete entry in the given workflow state. -/
def sampleEntry (s : String) : Entry :=
  { title := "Database Connection Timeout", severity := "critical",
    workflow_state := s, created_by := "test_user" }

/-- A store holding the single entry `1` in the given workflow state. -/
def sampleStore (s : String) : Store :=
  { entries := fun i => if i = 1 then some (sampleEntry s) else none,
    reviews := fun _ => none,
    next_review_id := 2 }

def alice : ReviewParticipant := { user_id := "alice", role := "lead" }

def bob : ReviewParticipant := { user_id := "bob", role := "reviewer" }

/-- A concrete review of entry `1` in the given status, with participants
alice (lead) and bob (reviewer). -/
def sampleReview (rs : String) : Review :=
  { entry_id := 1, status := rs, participants := [alice, bob] }

/-- A store holding entry `1` in state `es` and review `2` on it in status
`rs`. -/
def reviewStore (es rs : String) : Store :=
  { entries := fun i => if i = 1 then some (sampleEntry es) else none,
    reviews := fun i => if i = 2 then some (sampleReview rs) else none,
    next_review_id := 3 }

/-- A store holding review `2` in status `rs` whose `entry_id` `1` refers to
no existing entry. -/
def danglingReviewStore (rs : String) : Store :=
  { entries := fun _ => none,
    reviews := fun i => if i = 2 then some (sampleReview rs) else none,
    next_review_id := 3 }

namespace EntryRepository

lemma uws_missing (st : Store) (id : Nat) (s : String) (ab : Option String) (now : Nat)
    (h : st.entries id = none) :
    update_workflow_state st id s ab now = (st, none) := by
  unfold update_workflow_state
  rw [h]

lemma uws_found (st : Store) (id : Nat) (s : String) (ab : Option String) (now : Nat)
    (e : Entry) (h : st.entries id = some e) :
    update_workflow_state st id s ab now =
      ({ st with entries := fun i => if i = id then some (uwsEntry e s ab now) else st.entries i },
       some (uwsEntry e s ab now)) := by
  unfold update_workflow_state uwsEntry
  rw [h]

lemma uws_reviews (st : Store) (id : Nat) (s : String) (ab : Option String) (now : Nat) :
    (update_workflow_state st id s ab now).1.reviews = st.reviews := by
  unfold update_workflow_state
  cases h : st.entries id <;> rfl

lemma uws_entries_ne (st : Store) (id : Nat) (s : String) (ab : Option String) (now : Nat)
    (j : Nat) (hj : j ≠ id) :
    (update_workflow_state st id s ab now).1.entries j = st.entries j := by
  unfold update_workflow_state
  cases h : st.entries id
  · rfl
  · simp [hj]

end EntryRepository

namespace ReviewRepository

lemma update_status_found (st : Store) (id : Nat) (s : String) (rv : Review)
    (h : st.reviews id = some rv) :
    update_status st id s =
      ({ st with reviews := fun i => if i = id then some { rv with status := s } else st.reviews i },
       some { rv with status := s }) := by
  unfold update_status
  rw [h]

lemma update_status_entries (st : Store) (id : Nat) (s : String) :
    (update_status st id s).1.entries = st.entries := by
  unfold update_status
  cases h : st.reviews id <;> rfl

lemma approve_entries (st : Store) (rid : Nat) (u : String) (now : Nat) :
    (approve_by_participant st rid u now).1.entries = st.entries := by
  unfold approve_by_participant
  cases h : st.reviews rid
  · rfl
  · dsimp only
    split <;> rfl

lemma approve_single (st : Store) (rid : Nat) (u : String) (now : Nat)
    (rv : Review) (p : ReviewParticipant)
    (h : st.reviews rid = some rv)
    (hf : rv.participants.filter (fun q => q.user_id == u) = [p]) :
    approve_by_participant st rid u now =
      ({ st with reviews := fun i => if i = rid then some { rv with participants := rv.participants.map (fun q => if q.user_id == u then { q with approved_at := some now } else q) } else st.reviews i },
       .ok (some { p with approved_at := some now })) := by
  unfold approve_by_participant
  rw [h]
  dsimp only
  rw [hf]

end ReviewRepository

/-- A list whose filtration by `q` is the singleton `[p]` has `p` as its
first `q`-match. -/
lemma filter_eq_singleton_find? {α : Type} (l : List α) (q : α → Bool) (p : α)
    (h : l.filter q = [p]) : l.find? q = some p := by
  induction l with
  | nil => simp at h
  | cons a as ih =>
    by_cases ha : q a
    · rw [List.filter_cons_of_pos ha] at h
      obtain ⟨rfl, -⟩ : a = p ∧ as.filter q = [] := by
        simpa using h
      simp [List.find?, ha]
    · rw [List.filter_cons_of_neg (by simpa using ha)] at h
      simp only [List.find?]
      rw [Bool.of_not_eq_true ha]
      exact ih h

/-! ## Claim C1 -/

/-- Claim C1: the transition-legality check consulted by
`transition_workflow` accepts exactly the pairs of the spec table:
draft → in_review or retired, in_review → draft, published or retired,
published → retired or merged; in particular no pair whose source is
retired or merged (or any other string) is accepted. -/
theorem canTransition_matches_spec_table (c t : String) :
    EntryService.canTransition c t = true ↔
      (c = "draft" ∧ (t = "in_review" ∨ t = "retired")) ∨
      (c = "in_review" ∧ (t = "draft" ∨ t = "published" ∨ t = "retired")) ∨
      (c = "published" ∧ (t = "retired" ∨ t = "merged")) := by
  unfold EntryService.canTransition EntryService.dictGetD EntryService.VALID_WORKFLOW_TRANSITIONS
  by_cases h1 : "draft" = c
  · subst h1; simp [List.find?]
  by_cases h2 : "in_review" = c
  · subst h2; simp [List.find?]
  by_cases h3 : "published" = c
  · subst h3; simp [List.find?]
  by_cases h4 : "retired" = c
  · subst h4; simp [List.find?]
  by_cases h5 : "merged" = c
  · subst h5; simp [List.find?]
  · have e1 : ("draft" == c) = false := by simp [h1]
    have e2 : ("in_review" == c) = false := by simp [h2]
    have e3 : ("published" == c) = false := by simp [h3]
    have e4 : ("retired" == c) = false := by simp [h4]
    have e5 : ("merged" == c) = false := by simp [h5]
    simp [List.find?, e1, e2, e3, e4, e5, Ne.symm h1, Ne.symm h2, Ne.symm h3]

lemma uwsEntry_workflow_state (e : Entry) (s : String) (ab : Option String) (now : Nat) :
    (uwsEntry e s ab now).workflow_state = s := by
  unfold uwsEntry
  split <;> rfl

/-! ## Claim C9 -/

/-- Claim C9: for an existing entry, `transition_workflow` fails with a
`WorkflowError` — whose message names the current state, the requested
target state and the allowed set — exactly when the target is not in the
transition table's row for the entry's current state, and then the whole
store is unchanged (no write is issued); otherwise it succeeds and the
entry's workflow_state becomes the target. -/
theorem transition_workflow_legality (st : Store) (eid : Nat) (tgt : String)
    (ab : Option String) (now : Nat) (e : Entry)
    (he : st.entries eid = some e) :
    (EntryService.canTransition e.workflow_state tgt = false →
      EntryService.transition_workflow st eid tgt ab now =
        (st, .error (.WorkflowError (EntryService.invalidTransitionMsg e.workflow_state tgt
            (EntryService.dictGetD EntryService.VALID_WORKFLOW_TRANSITIONS e.workflow_state []))))) ∧
    (EntryService.canTransition e.workflow_state tgt = true →
      ((EntryService.transition_workflow st eid tgt ab now).1.entries eid).map Entry.workflow_state = some tgt ∧
      (EntryService.transition_workflow st eid tgt ab now).2 = .ok (some (uwsEntry e tgt ab now))) := by
  constructor
  · intro hno
    simp only [EntryService.canTransition] at hno
    unfold EntryService.transition_workflow EntryRepository.get
    rw [he]
    simp only [hno, Bool.false_eq_true, if_false]
  · intro hyes
    simp only [EntryService.canTransition] at hyes
    unfold EntryService.transition_workflow EntryRepository.get
    rw [he]
    simp only [hyes, if_true]
    rw [EntryRepository.uws_found st eid tgt ab now e he]
    simp [uwsEntry_workflow_state]

/-- Witness for claim C9: the draft entry `1` may not move straight to
"published"; `transition_workflow` leaves the store unchanged and raises
the diagnostic `WorkflowError`. -/
theorem transition_workflow_legality_witness :
    EntryService.transition_workflow (sampleStore "draft") 1 "published" none 0 =
      ((sampleStore "draft"),
       .error (.WorkflowError (EntryService.invalidTransitionMsg "draft" "published" ["in_review", "retired"]))) :=
  (transition_workflow_legality (sampleStore "draft") 1 "published" none 0
    (sampleEntry "draft") rfl).1 (by decide)

/-! ## Claim C2 -/

lemma create_with_participants_entries (st : Store) (d : Review)
    (ps : Option (List ReviewParticipant)) :
    (ReviewRepository.create_with_participants st d ps).1.entries = st.entries := rfl

/-- Claim C2 counterexample: `delete_entry` does not consult the transition
table, so it moves the terminal entry `1` from "merged" to "retired". -/
theorem delete_entry_retires_merged_entry :
    ((sampleStore "merged").entries 1).map Entry.workflow_state = some "merged" ∧
    (EntryService.delete_entry (sampleStore "merged") 1 0).2 = .ok true ∧
    ((EntryService.delete_entry (sampleStore "merged") 1 0).1.entries 1).map Entry.workflow_state = some "retired" :=
  ⟨rfl, rfl, rfl⟩

/-- Claim C2 amended: `transition_workflow` and `create_review` never change
the workflow_state of an entry in a terminal state ("retired" or "merged");
`delete_entry` never changes the workflow_state of any entry it does not
target and never changes a retired entry it does target (it retires a
merged entry it targets, and `submit_decision` on a pending review
referencing a terminal entry writes the entry state unconditionally — those
two operations do not preserve terminal states). -/
theorem terminal_entries_preserved (st : Store) (eid : Nat) (e : Entry)
    (he : st.entries eid = some e)
    (hterm : e.workflow_state = "retired" ∨ e.workflow_state = "merged") :
    (∀ id tgt ab now, ((EntryService.transition_workflow st id tgt ab now).1.entries eid).map Entry.workflow_state = some e.workflow_state) ∧
    (∀ id rd cb now, ((ReviewService.create_review st id rd cb now).1.entries eid).map Entry.workflow_state = some e.workflow_state) ∧
    (∀ id now, id ≠ eid → ((EntryService.delete_entry st id now).1.entries eid).map Entry.workflow_state = some e.workflow_state) ∧
    (∀ now, e.workflow_state = "retired" → ((EntryService.delete_entry st eid now).1.entries eid).map Entry.workflow_state = some e.workflow_state) := by
  have hterm_ne_draft : e.workflow_state ≠ "draft" := by
    rcases hterm with h | h <;> rw [h] <;> decide
  refine ⟨?_, ?_, ?_, ?_⟩
  · intro id tgt ab now
    unfold EntryService.transition_workflow EntryRepository.get
    cases hid : st.entries id with
    | none => simp [he]
    | some entry =>
      by_cases hideq : id = eid
      · subst hideq
        rw [he] at hid
        obtain rfl : e = entry := by simpa using hid
        rcases hterm with h | h <;> rw [h] <;> simp [he, h,
          show EntryService.dictGetD EntryService.VALID_WORKFLOW_TRANSITIONS "retired" [] = [] from rfl,
          show EntryService.dictGetD EntryService.VALID_WORKFLOW_TRANSITIONS "merged" [] = [] from rfl]
      · dsimp only
        split
        · rcases hupd : EntryRepository.update_workflow_state st id tgt ab now with ⟨st', e'⟩
          have hfr := EntryRepository.uws_entries_ne st id tgt ab now eid (Ne.symm hideq)
          rw [hupd] at hfr
          simp only [hupd]
          rw [hfr, he]
          rfl
        · simp [he]
  · intro id rd cb now
    unfold ReviewService.create_review EntryRepository.get
    cases hid : st.entries id with
    | none => simp [he]
    | some entry =>
      dsimp only
      split
      · simp [he]
      · rename_i hdraft
        have hentry_draft : entry.workflow_state = "draft" := by
          simpa using hdraft
        have hideq : id ≠ eid := by
          intro hcontra
          subst hcontra
          rw [he] at hid
          obtain rfl : e = entry := by simpa using hid
          exact hterm_ne_draft hentry_draft
        rcases hupd : EntryRepository.update_workflow_state
            (ReviewRepository.create_with_participants st
              { entry_id := id, status := "pending", rca_text := rd.rca_text, participants := [] }
              (match rd.participants with
                | none => none
                | some ps => if ps.isEmpty then none else some ps)).1
            id "in_review" none now with ⟨st', e'⟩
        have hfr := EntryRepository.uws_entries_ne
            (ReviewRepository.create_with_participants st
              { entry_id := id, status := "pending", rca_text := rd.rca_text, participants := [] }
              (match rd.participants with
                | none => none
                | some ps => if ps.isEmpty then none else some ps)).1
            id "in_review" none now eid (Ne.symm hideq)
        rw [hupd] at hfr
        simp only [hupd]
        rw [hfr, create_with_participants_entries, he]
        rfl
  · intro id now hideq
    unfold EntryService.delete_entry EntryRepository.get
    cases hid : st.entries id with
    | none => simp [he]
    | some entry =>
      rcases hupd : EntryRepository.update_workflow_state st id "retired" none now with ⟨st', e'⟩
      have hfr := EntryRepository.uws_entries_ne st id "retired" none now eid (Ne.symm hideq)
      rw [hupd] at hfr
      simp only [hupd]
      rw [hfr, he]
      rfl
  · intro now hret
    unfold EntryService.delete_entry EntryRepository.get
    rw [he]
    dsimp only
    rw [EntryRepository.uws_found st eid "retired" none now e he]
    simp [uwsEntry_workflow_state, hret]

/-- Witness for the amended claim C2: with entry `1` merged, a
`transition_workflow` request to "published" leaves its state "merged". -/
theorem terminal_entries_preserved_witness :
    ((EntryService.transition_workflow (sampleStore "merged") 1 "published" none 0).1.entries 1).map Entry.workflow_state = some "merged" :=
  (terminal_entries_preserved (sampleStore "merged") 1 (sampleEntry "merged") rfl
    (Or.inr rfl)).1 1 "published" none 0

/-! ## Claim C6 -/

/-- Claim C6: `create_review` on an existing entry that is not in "draft"
fails with `WorkflowError` and returns the store exactly as it was — no
review is created and the entry is unchanged. -/
theorem create_review_non_draft_fails (st : Store) (eid : Nat) (rd : ReviewCreate)
    (cb : String) (now : Nat) (e : Entry)
    (he : st.entries eid = some e) (hnd : e.workflow_state ≠ "draft") :
    ReviewService.create_review st eid rd cb now =
      (st, .error (.WorkflowError
        ("Entry must be in draft state to create review. Current state: " ++ e.workflow_state))) := by
  unfold ReviewService.create_review EntryRepository.get
  rw [he]
  have hb : (e.workflow_state != "draft") = true := by simpa using hnd
  simp only [hb, if_true]

/-- Witness for claim C6: opening a review on the published entry `1`
changes nothing and raises the `WorkflowError`. -/
theorem create_review_non_draft_fails_witness :
    ReviewService.create_review (sampleStore "published") 1 {} "test_user" 0 =
      ((sampleStore "published"), .error (.WorkflowError
        ("Entry must be in draft state to create review. Current state: " ++ "published"))) :=
  create_review_non_draft_fails (sampleStore "published") 1 {} "test_user" 0
    (sampleEntry "published") rfl (by decide)

lemma uws_entries_self_map_ws (st : Store) (id : Nat) (s : String)
    (ab : Option String) (now : Nat) (e : Entry) (h : st.entries id = some e) :
    ((EntryRepository.update_workflow_state st id s ab now).1.entries id).map Entry.workflow_state = some s := by
  rw [EntryRepository.uws_found st id s ab now e h]
  simp [uwsEntry_workflow_state]

/-! ## Claim C4 -/

/-- Claim C4: `create_review` on an existing draft entry succeeds: after
the call the new review (stored under the fresh id) has status "pending"
and `entry_id` equal to the entry, that review is what the call returns,
and the entry's workflow_state is "in_review" — both effects are visible
together in the single post-state. -/
theorem create_review_on_draft (st : Store) (eid : Nat) (rd : ReviewCreate)
    (cb : String) (now : Nat) (e : Entry)
    (he : st.entries eid = some e) (hd : e.workflow_state = "draft") :
    ((ReviewService.create_review st eid rd cb now).1.reviews st.next_review_id).map Review.status = some "pending" ∧
    ((ReviewService.create_review st eid rd cb now).1.reviews st.next_review_id).map Review.entry_id = some eid ∧
    (ReviewService.create_review st eid rd cb now).2 = .ok ((ReviewService.create_review st eid rd cb now).1.reviews st.next_review_id) ∧
    ((ReviewService.create_review st eid rd cb now).1.entries eid).map Entry.workflow_state = some "in_review" := by
  unfold ReviewService.create_review EntryRepository.get ReviewRepository.create_with_participants ReviewRepository.get_with_participants
  rw [he]
  have hb : (e.workflow_state != "draft") = false := by simp [hd]
  simp only [hb, Bool.false_eq_true, if_false]
  refine ⟨?_, ?_, trivial, ?_⟩
  · simp only [EntryRepository.uws_reviews]
    simp
  · simp only [EntryRepository.uws_reviews]
    simp
  · exact uws_entries_self_map_ws _ eid "in_review" none now e he

/-- Witness for claim C4: opening a review with participants alice and bob
on the draft entry `1` stores a pending review on entry `1`, returns it,
and flips the entry to "in_review". -/
theorem create_review_on_draft_witness :
    ((ReviewService.create_review (sampleStore "draft") 1 { participants := some [alice, bob] } "test_user" 0).1.reviews (sampleStore "draft").next_review_id).map Review.status = some "pending" ∧
    ((ReviewService.create_review (sampleStore "draft") 1 { participants := some [alice, bob] } "test_user" 0).1.reviews (sampleStore "draft").next_review_id).map Review.entry_id = some 1 ∧
    (ReviewService.create_review (sampleStore "draft") 1 { participants := some [alice, bob] } "test_user" 0).2 = .ok ((ReviewService.create_review (sampleStore "draft") 1 { participants := some [alice, bob] } "test_user" 0).1.reviews (sampleStore "draft").next_review_id) ∧
    ((ReviewService.create_review (sampleStore "draft") 1 { participants := some [alice, bob] } "test_user" 0).1.entries 1).map Entry.workflow_state = some "in_review" :=
  create_review_on_draft (sampleStore "draft") 1 { participants := some [alice, bob] } "test_user" 0 (sampleEntry "draft") rfl rfl

/-! ## Claim C7 -/

/-- Claim C7: a decision submitted on a review that is no longer pending
fails with `ValidationError` and changes nothing — the store (review
status, participants, entry) is returned exactly as it was. -/
theorem submit_decision_non_pending_fails (st : Store) (rid : Nat)
    (d : ReviewDecision) (u : String) (now : Nat) (rv : Review)
    (hr : st.reviews rid = some rv) (hnp : rv.status ≠ "pending") :
    ReviewService.submit_decision st rid d u now =
      (st, .error (.ValidationError ("Review is already " ++ rv.status))) := by
  unfold ReviewService.submit_decision ReviewRepository.get_with_participants
  rw [hr]
  have hb : (rv.status != "pending") = true := by simpa using hnp
  simp only [hb, if_true]

/-- Witness for claim C7: re-deciding the already approved review `2`
fails with `ValidationError` and leaves the store untouched. -/
theorem submit_decision_non_pending_fails_witness :
    ReviewService.submit_decision (reviewStore "published" "approved") 2
        { status := "rejected" } "alice" 5 =
      ((reviewStore "published" "approved"),
       .error (.ValidationError ("Review is already " ++ "approved"))) :=
  submit_decision_non_pending_fails (reviewStore "published" "approved") 2
    { status := "rejected" } "alice" 5 (sampleReview "approved") rfl (by decide)

/-! ## Claim C8 -/

/-- Claim C8: a decision submitted by a user who is not among the review's
participants — whatever the participants' roles — fails with
`ValidationError` and changes nothing: the store is returned exactly as it
was, so the review is still pending and the entry untouched. -/
theorem submit_decision_non_participant_fails (st : Store) (rid : Nat)
    (d : ReviewDecision) (u : String) (now : Nat) (rv : Review)
    (hr : st.reviews rid = some rv) (hp : rv.status = "pending")
    (hnotin : ∀ p ∈ rv.participants, p.user_id ≠ u) :
    ReviewService.submit_decision st rid d u now =
      (st, .error (.ValidationError ("User " ++ u ++ " is not a participant in this review"))) := by
  unfold ReviewService.submit_decision ReviewRepository.get_with_participants
  rw [hr]
  have hb : (rv.status != "pending") = false := by simp [hp]
  have hfind : rv.participants.find? (fun p => p.user_id == u) = none := by
    rw [List.find?_eq_none]
    intro p hpmem
    simpa using hnotin p hpmem
  simp only [hb, Bool.false_eq_true, if_false, hfind]

/-- Witness for claim C8: carol is not a participant of the pending review
`2` (whose participants are alice, a lead, and bob, a reviewer), so her
decision fails with `ValidationError` and the store is unchanged. -/
theorem submit_decision_non_participant_fails_witness :
    ReviewService.submit_decision (reviewStore "in_review" "pending") 2
        { status := "approved" } "carol" 5 =
      ((reviewStore "in_review" "pending"),
       .error (.ValidationError ("User " ++ "carol" ++ " is not a participant in this review"))) :=
  submit_decision_non_participant_fails (reviewStore "in_review" "pending") 2
    { status := "approved" } "carol" 5 (sampleReview "pending") rfl rfl (by decide)

/-! ## Claim C5 -/

lemma find?_isSome_of_exists {α : Type} (l : List α) (q : α → Bool)
    (h : ∃ x ∈ l, q x = true) : ∃ y, l.find? q = some y := by
  induction l with
  | nil => simp at h
  | cons a as ih =>
    by_cases ha : q a = true
    · exact ⟨a, by simp [List.find?, ha]⟩
    · obtain ⟨x, hx, hqx⟩ := h
      rcases List.mem_cons.mp hx with rfl | hx'
      · exact absurd hqx ha
      · obtain ⟨y, hy⟩ := ih ⟨x, hx', hqx⟩
        refine ⟨y, ?_⟩
        simp only [List.find?]
        rw [Bool.of_not_eq_true ha]
        exact hy

/-- The store and result `submit_decision` produces on the "rejected" /
"changes_requested" path, fully explicit: the review's status is
overwritten with the decision and the entry is moved to "draft" with no
approval stamp. -/
lemma submit_decision_reject_run (st : Store) (rid : Nat) (u : String)
    (now : Nat) (c : Option String) (ds : String) (rv : Review)
    (p : ReviewParticipant)
    (hr : st.reviews rid = some rv) (hp : rv.status = "pending")
    (hfind : rv.participants.find? (fun q => q.user_id == u) = some p)
    (hds : ds = "rejected" ∨ ds = "changes_requested") :
    ReviewService.submit_decision st rid ⟨ds, c⟩ u now =
      ((EntryRepository.update_workflow_state { st with reviews := fun i => if i = rid then some { rv with status := ds } else st.reviews i } rv.entry_id "draft" none now).1,
       .ok ((EntryRepository.update_workflow_state { st with reviews := fun i => if i = rid then some { rv with status := ds } else st.reviews i } rv.entry_id "draft" none now).1.reviews rid)) := by
  have hb : (rv.status != "pending") = false := by simp [hp]
  rcases hds with rfl | rfl <;>
  · unfold ReviewService.submit_decision ReviewRepository.get_with_participants
    rw [hr]
    simp only [hb, Bool.false_eq_true, if_false, hfind]
    simp only [ReviewRepository.update_status_found st rid _ rv hr]
    simp

/-- Claim C5: a "rejected" or "changes_requested" decision by a participant
on a pending review moves the entry back to "draft" and changes no other
entry field — in particular `approved_by` and `approved_at` keep their
prior values — and the two decision values leave the entry store in
identical states. -/
theorem submit_decision_reject_returns_draft (st : Store) (rid : Nat)
    (u : String) (now : Nat) (c : Option String) (ds : String)
    (rv : Review) (e : Entry)
    (hr : st.reviews rid = some rv) (hp : rv.status = "pending")
    (hin : ∃ p ∈ rv.participants, p.user_id = u)
    (he : st.entries rv.entry_id = some e)
    (hds : ds = "rejected" ∨ ds = "changes_requested") :
    (ReviewService.submit_decision st rid ⟨ds, c⟩ u now).1.entries rv.entry_id =
      some { e with workflow_state := "draft" } ∧
    (ReviewService.submit_decision st rid ⟨"rejected", c⟩ u now).1.entries =
      (ReviewService.submit_decision st rid ⟨"changes_requested", c⟩ u now).1.entries := by
  obtain ⟨p, hfind⟩ := find?_isSome_of_exists rv.participants (fun q => q.user_id == u)
    (by obtain ⟨q, hqm, hqu⟩ := hin; exact ⟨q, hqm, by simp [hqu]⟩)
  constructor
  · rw [submit_decision_reject_run st rid u now c ds rv p hr hp hfind hds]
    have he' : ({ st with reviews := fun i => if i = rid then some { rv with status := ds } else st.reviews i } : Store).entries rv.entry_id = some e := he
    rw [EntryRepository.uws_found _ rv.entry_id "draft" none now e he']
    simp [uwsEntry, truthyStr]
  · rw [submit_decision_reject_run st rid u now c "rejected" rv p hr hp hfind (Or.inl rfl),
        submit_decision_reject_run st rid u now c "changes_requested" rv p hr hp hfind (Or.inr rfl)]
    have heR : ({ st with reviews := fun i => if i = rid then some { rv with status := "rejected" } else st.reviews i } : Store).entries rv.entry_id = some e := he
    have heC : ({ st with reviews := fun i => if i = rid then some { rv with status := "changes_requested" } else st.reviews i } : Store).entries rv.entry_id = some e := he
    rw [EntryRepository.uws_found _ rv.entry_id "draft" none now e heR,
        EntryRepository.uws_found _ rv.entry_id "draft" none now e heC]

/-- Witness for claim C5: bob rejects the pending review `2` on the
in-review entry `1`; the entry returns to "draft" with its approval fields
untouched, and "changes_requested" would have produced the identical entry
store. -/
theorem submit_decision_reject_returns_draft_witness :
    (ReviewService.submit_decision (reviewStore "in_review" "pending") 2 ⟨"rejected", none⟩ "bob" 5).1.entries 1 =
      some { sampleEntry "in_review" with workflow_state := "draft" } ∧
    (ReviewService.submit_decision (reviewStore "in_review" "pending") 2 ⟨"rejected", none⟩ "bob" 5).1.entries =
      (ReviewService.submit_decision (reviewStore "in_review" "pending") 2 ⟨"changes_requested", none⟩ "bob" 5).1.entries :=
  submit_decision_reject_returns_draft (reviewStore "in_review" "pending") 2 "bob" 5 none
    "rejected" (sampleReview "pending") (sampleEntry "in_review") rfl rfl
    ⟨bob, by decide, rfl⟩ rfl (Or.inl rfl)

/-! ## Claim C3 -/

lemma uws_reviews_at (st : Store) (id : Nat) (s : String) (ab : Option String)
    (now : Nat) (j : Nat) :
    (EntryRepository.update_workflow_state st id s ab now).1.reviews j = st.reviews j := by
  rw [EntryRepository.uws_reviews]

lemma uws_entries_self_eq (st : Store) (id : Nat) (s : String) (u : String)
    (now : Nat) (e : Entry) (h : st.entries id = some e)
    (hu : truthyStr (some u) = true) :
    (EntryRepository.update_workflow_state st id s (some u) now).1.entries id =
      some { e with workflow_state := s, approved_by := some u, approved_at := some now } := by
  rw [EntryRepository.uws_found st id s (some u) now e h]
  simp [uwsEntry, hu]

lemma truthyStr_some_of_ne (u : String) (hu : u ≠ "") : truthyStr (some u) = true := by
  have hdef : truthyStr (some u) = !u.isEmpty := rfl
  rw [hdef]
  cases hc : u.isEmpty
  · rfl
  · exact absurd ((String.isEmpty_iff u).mp hc) hu

/-- Claim C3: an "approved" decision by the (unique) participant `u` of a
pending review whose entry exists sets the review's status to "approved",
publishes the entry with `approved_by = u` and `approved_at` stamped with
the current (non-null) time, and sets participant `u`'s `approved_at`.
The participant row for `u` is assumed unique (the schema validates
`user_id`, and duplicate rows would make the underlying
`scalar_one_or_none` query raise) and `u` is non-empty (schema
`min_length=1`; the repository tests Python truthiness of `approved_by`). -/
theorem submit_decision_approved_publishes (st : Store) (rid : Nat) (u : String)
    (now : Nat) (c : Option String) (rv : Review) (p : ReviewParticipant) (e : Entry)
    (hr : st.reviews rid = some rv) (hp : rv.status = "pending")
    (hfilter : rv.participants.filter (fun q => q.user_id == u) = [p])
    (hu : u ≠ "")
    (he : st.entries rv.entry_id = some e) :
    ((ReviewService.submit_decision st rid ⟨"approved", c⟩ u now).1.reviews rid).map Review.status = some "approved" ∧
    (ReviewService.submit_decision st rid ⟨"approved", c⟩ u now).1.entries rv.entry_id =
      some { e with workflow_state := "published", approved_by := some u, approved_at := some now } ∧
    ((ReviewService.submit_decision st rid ⟨"approved", c⟩ u now).1.reviews rid).map Review.participants =
      some (rv.participants.map (fun q => if q.user_id == u then { q with approved_at := some now } else q)) ∧
    { p with approved_at := some now } ∈ rv.participants.map (fun q => if q.user_id == u then { q with approved_at := some now } else q) := by
  have hfind := filter_eq_singleton_find? rv.participants (fun q => q.user_id == u) p hfilter
  have hb : (rv.status != "pending") = false := by simp [hp]
  have htruthy := truthyStr_some_of_ne u hu
  have h1 : ({ st with reviews := fun i => if i = rid then some { rv with status := "approved" } else st.reviews i } : Store).reviews rid = some { rv with status := "approved" } := by
    simp
  have h2 : ({ rv with status := "approved" } : Review).participants.filter (fun q => q.user_id == u) = [p] := hfilter
  unfold ReviewService.submit_decision ReviewRepository.get_with_participants
  rw [hr]
  simp only [hb, Bool.false_eq_true, if_false, hfind]
  simp only [ReviewRepository.update_status_found st rid "approved" rv hr]
  rw [ReviewRepository.approve_single { st with reviews := fun i => if i = rid then some { rv with status := "approved" } else st.reviews i } rid u now { rv with status := "approved" } p h1 h2]
  have hpmemf : p ∈ rv.participants.filter (fun q => q.user_id == u) := by
    rw [hfilter]
    exact List.mem_singleton_self p
  refine ⟨?_, ?_, ?_, ?_⟩
  · simp [uws_reviews_at]
  · exact uws_entries_self_eq _ rv.entry_id "published" u now e he htruthy
  · simp [uws_reviews_at]
  · refine List.mem_map.mpr ⟨p, ?_, ?_⟩
    · exact List.mem_of_mem_filter hpmemf
    · have hpu := List.of_mem_filter hpmemf
      simp only [] at hpu
      simp [hpu]

/-- Witness for claim C3: alice approves the pending review `2` on the
in-review entry `1`; the review becomes "approved", the entry is published
and stamped with approver alice at time 5, and alice's participant row is
stamped as well. -/
theorem submit_decision_approved_publishes_witness :
    ((ReviewService.submit_decision (reviewStore "in_review" "pending") 2 ⟨"approved", none⟩ "alice" 5).1.reviews 2).map Review.status = some "approved" ∧
    (ReviewService.submit_decision (reviewStore "in_review" "pending") 2 ⟨"approved", none⟩ "alice" 5).1.entries 1 =
      some { sampleEntry "in_review" with workflow_state := "published", approved_by := some "alice", approved_at := some 5 } ∧
    ((ReviewService.submit_decision (reviewStore "in_review" "pending") 2 ⟨"approved", none⟩ "alice" 5).1.reviews 2).map Review.participants =
      some ((sampleReview "pending").participants.map (fun q => if q.user_id == "alice" then { q with approved_at := some 5 } else q)) ∧
    { alice with approved_at := some 5 } ∈ (sampleReview "pending").participants.map (fun q => if q.user_id == "alice" then { q with approved_at := some 5 } else q) :=
  submit_decision_approved_publishes (reviewStore "in_review" "pending") 2 "alice" 5 none
    (sampleReview "pending") alice (sampleEntry "in_review") rfl rfl (by decide) (by decide) rfl

/-! ## Claim C10 -/

lemma uws_missing_fst (st : Store) (id : Nat) (s : String) (ab : Option String)
    (now : Nat) (h : st.entries id = none) :
    (EntryRepository.update_workflow_state st id s ab now).1 = st := by
  rw [EntryRepository.uws_missing st id s ab now h]

/-- Claim C10: when a pending review's `entry_id` refers to no existing
entry, a participant's decision does not fail with `NotFoundError`: the
review's status is set to the decision, the (updated) review is returned,
and the entry store is left completely untouched — the missing entry is
silently ignored. -/
theorem submit_decision_missing_entry_silent (st : Store) (rid : Nat) (u : String)
    (now : Nat) (c : Option String) (ds : String) (rv : Review) (p : ReviewParticipant)
    (hr : st.reviews rid = some rv) (hp : rv.status = "pending")
    (hfilter : rv.participants.filter (fun q => q.user_id == u) = [p])
    (he : st.entries rv.entry_id = none)
    (hds : ds = "approved" ∨ ds = "rejected" ∨ ds = "changes_requested") :
    (ReviewService.submit_decision st rid ⟨ds, c⟩ u now).1.entries = st.entries ∧
    ((ReviewService.submit_decision st rid ⟨ds, c⟩ u now).1.reviews rid).map Review.status = some ds ∧
    (ReviewService.submit_decision st rid ⟨ds, c⟩ u now).2 =
      .ok ((ReviewService.submit_decision st rid ⟨ds, c⟩ u now).1.reviews rid) := by
  have hfind := filter_eq_singleton_find? rv.participants (fun q => q.user_id == u) p hfilter
  have hb : (rv.status != "pending") = false := by simp [hp]
  rcases hds with rfl | rfl | rfl
  · have h1 : ({ st with reviews := fun i => if i = rid then some { rv with status := "approved" } else st.reviews i } : Store).reviews rid = some { rv with status := "approved" } := by
      simp
    have h2 : ({ rv with status := "approved" } : Review).participants.filter (fun q => q.user_id == u) = [p] := hfilter
    unfold ReviewService.submit_decision ReviewRepository.get_with_participants
    rw [hr]
    simp only [hb, Bool.false_eq_true, if_false, hfind]
    simp only [ReviewRepository.update_status_found st rid "approved" rv hr]
    rw [ReviewRepository.approve_single { st with reviews := fun i => if i = rid then some { rv with status := "approved" } else st.reviews i } rid u now { rv with status := "approved" } p h1 h2]
    refine ⟨?_, ?_, ?_⟩ <;> simp [uws_missing_fst, he]
  · rw [submit_decision_reject_run st rid u now c "rejected" rv p hr hp hfind (Or.inl rfl)]
    refine ⟨?_, ?_, ?_⟩ <;> simp [uws_missing_fst, he]
  · rw [submit_decision_reject_run st rid u now c "changes_requested" rv p hr hp hfind (Or.inr rfl)]
    refine ⟨?_, ?_, ?_⟩ <;> simp [uws_missing_fst, he]

/-- Witness for claim C10: bob rejects the pending review `2` whose entry
`1` does not exist; the call succeeds, the review becomes "rejected", and
the (empty) entry store is untouched. -/
theorem submit_decision_missing_entry_silent_witness :
    (ReviewService.submit_decision (danglingReviewStore "pending") 2 ⟨"rejected", none⟩ "bob" 5).1.entries = (danglingReviewStore "pending").entries ∧
    ((ReviewService.submit_decision (danglingReviewStore "pending") 2 ⟨"rejected", none⟩ "bob" 5).1.reviews 2).map Review.status = some "rejected" ∧
    (ReviewService.submit_decision (danglingReviewStore "pending") 2 ⟨"rejected", none⟩ "bob" 5).2 =
      .ok ((ReviewService.submit_decision (danglingReviewStore "pending") 2 ⟨"rejected", none⟩ "bob" 5).1.reviews 2) :=
  submit_decision_missing_entry_silent (danglingReviewStore "pending") 2 "bob" 5 none
    "rejected" (sampleReview "pending") bob rfl rfl (by decide) rfl (Or.inr (Or.inl rfl))
